import Mathlib

/-!
Shallow embedding of `packages/vscode/src/fragmentcommands.ts`.

The command handlers are async functions whose only interactions with the
outside world go through the VS Code API (`state`, `vscode.window`,
`vscode.workspace`) and the `coarch-core` helpers.  We embed each handler as
a pure function from an explicit extension state plus an environment oracle
(the answers the VS Code API would give at each suspension point) to a
result, a successor state and a trace of observable effects.

Helpers imported from `coarch-core` and from `./state` (`rootFragment`,
`groupBy`, `templateGroup`, `Project.resolveFragment`, `getTemplate`,
`cancelAiRequest`, `requestAI`, `parseWorkspace`, `parseDocument`,
`saveAllTextDocuments`) are not part of the given sources; they are
modelled from the specification, each marked as such in its doc comment.
-/

namespace FragmentCommands

/-- A `references` entry of a root fragment (coarch-core); only its
`filename` is consulted by `resolveSpec`. -/
structure Reference where
  filename : String
deriving DecidableEq

/-- A fragment of a specification document.  The `file` back-reference of
the TypeScript object is flattened to the owning file's name (`filename`);
the `parent` back-reference is embedded structurally, which also makes the
parent graph a forest by construction. -/
inductive Fragment where
  | mk (fullId : String) (title : String) (startPos : Nat × Nat) (endPos : Nat × Nat)
      (references : List Reference) (filename : String) (parent : Option Fragment)

def Fragment.decEq : (a b : Fragment) → Decidable (a = b)
  | .mk i1 t1 s1 e1 r1 f1 none, .mk i2 t2 s2 e2 r2 f2 none =>
    if h : i1 = i2 ∧ t1 = t2 ∧ s1 = s2 ∧ e1 = e2 ∧ r1 = r2 ∧ f1 = f2 then
      isTrue (by obtain ⟨h1, h2, h3, h4, h5, h6⟩ := h; subst_vars; rfl)
    else
      isFalse (fun hh => by
        injection hh with h1 h2 h3 h4 h5 h6 h7
        exact h ⟨h1, h2, h3, h4, h5, h6⟩)
  | .mk i1 t1 s1 e1 r1 f1 (some p1), .mk i2 t2 s2 e2 r2 f2 (some p2) =>
    match Fragment.decEq p1 p2 with
    | isTrue hp =>
      if h : i1 = i2 ∧ t1 = t2 ∧ s1 = s2 ∧ e1 = e2 ∧ r1 = r2 ∧ f1 = f2 then
        isTrue (by obtain ⟨h1, h2, h3, h4, h5, h6⟩ := h; subst_vars; rfl)
      else
        isFalse (fun hh => by
          injection hh with h1 h2 h3 h4 h5 h6 h7
          exact h ⟨h1, h2, h3, h4, h5, h6⟩)
    | isFalse hp =>
      isFalse (fun hh => by
        injection hh with h1 h2 h3 h4 h5 h6 h7
        exact hp (Option.some.inj h7))
  | .mk _ _ _ _ _ _ none, .mk _ _ _ _ _ _ (some _) =>
    isFalse (fun hh => by
      injection hh with h1 h2 h3 h4 h5 h6 h7
      exact Option.noConfusion h7)
  | .mk _ _ _ _ _ _ (some _), .mk _ _ _ _ _ _ none =>
    isFalse (fun hh => by
      injection hh with h1 h2 h3 h4 h5 h6 h7
      exact Option.noConfusion h7)

instance : DecidableEq Fragment := Fragment.decEq

def Fragment.fullId : Fragment → String
  | .mk v _ _ _ _ _ _ => v

def Fragment.title : Fragment → String
  | .mk _ v _ _ _ _ _ => v

def Fragment.startPos : Fragment → Nat × Nat
  | .mk _ _ v _ _ _ _ => v

def Fragment.endPos : Fragment → Nat × Nat
  | .mk _ _ _ v _ _ _ => v

def Fragment.references : Fragment → List Reference
  | .mk _ _ _ _ v _ _ => v

def Fragment.filename : Fragment → String
  | .mk _ _ _ _ _ v _ => v

def Fragment.parent : Fragment → Option Fragment
  | .mk _ _ _ _ _ _ v => v

/-- A parsed specification document (`rootFiles` element): its file name,
its top-level root fragments and its full fragment list. -/
structure Document where
  filename : String
  roots : List Fragment
  fragments : List Fragment
deriving DecidableEq

/-- A prompt template (coarch-core `PromptTemplate`): only the fields read
by `fragmentcommands.ts` are modelled. -/
structure PromptTemplate where
  id : String
  title : String
  description : Option String
  group : String
deriving DecidableEq

/-- The parsed project: its documents and the `fragmentByFullId` lookup
mapping (an association list with unique keys), plus the template catalog
behind `getTemplate`. -/
structure Project where
  rootFiles : List Document
  fragmentByFullId : List (String × Fragment)
  templates : List PromptTemplate
deriving DecidableEq

/-- `state.project.fragmentByFullId[id]`: association-list lookup. -/
def Project.lookupFullId (p : Project) (id : String) : Option Fragment :=
  (p.fragmentByFullId.find? (fun kv => kv.1 == id)).map (fun kv => kv.2)

/-- Modelled from the spec: `getTemplate` of coarch-core returns the catalog
template with the given unique `id`, if any. -/
def Project.getTemplate (p : Project) (templateId : String) : Option PromptTemplate :=
  p.templates.find? (fun t => t.id == templateId)

/-- Modelled from the spec (§3): `rootFragment` of coarch-core walks
`parent` links to the unique ancestor with no parent; the walk terminates
because the parent graph is a forest. -/
def rootFragment : Fragment → Fragment
  | .mk i t s e r f none => .mk i t s e r f none
  | .mk _ _ _ _ _ _ (some p) => rootFragment p

/-- `rootFragment` lifted to a possibly-missing fragment: the TypeScript
call sites tolerate `undefined` and return it unchanged. -/
def rootFragmentOpt : Option Fragment → Option Fragment :=
  Option.map rootFragment

/-- The `/\.gpspec\.md$/i` test of `resolveSpec`: a case-insensitive check
that the path ends with the specification-document suffix.  (Embedded over
the character list so that it computes by structural recursion.) -/
def isGpspecPath (s : String) : Bool :=
  List.isSuffixOf ".gpspec.md".data (s.data.map Char.toLower)

/-- The loose identifier accepted by `resolveSpec` / `resolveFragment`:
a `Fragment` value, a plain string, or a `vscode.Uri`. -/
inductive FragIdent where
  | frag (f : Fragment)
  | str (s : String)
  | uri (fsPath : String)
deriving DecidableEq

/-- Modelled from the spec (§4.1): `Project.resolveFragment` of coarch-core.
An absent identifier resolves to nothing; a path matching the
specification-document suffix resolves to that document's first declared
root fragment; a fragment value or id string is looked up directly in
`fragmentByFullId` and fails when the id is stale.  (A `Uri` never reaches
this function: `resolveSpec` converts it to its path string first.) -/
def Project.resolveFragment (p : Project) (frag : Option FragIdent) : Option Fragment :=
  match frag with
  | none => none
  | some (.frag f) => p.lookupFullId f.fullId
  | some (.uri _) => none
  | some (.str s) =>
      if isGpspecPath s then
        (p.rootFiles.find? (fun f => f.filename == s)).bind (fun f => f.roots.head?)
      else
        p.lookupFullId s

/-- Modelled from the spec (§4.2): `templateGroup` of coarch-core yields the
template's `group` attribute used for display categorization. -/
def templateGroup (t : PromptTemplate) : String :=
  t.group

/-- Modelled from the spec (§4.2): `groupBy` of coarch-core groups a list by
a string key; group order is first-seen order while iterating the input, and
within a group elements retain input order. -/
def groupBy (xs : List PromptTemplate) (key : PromptTemplate → String) :
    List (String × List PromptTemplate) :=
  xs.foldl (fun acc x =>
    let k := key x
    if acc.any (fun p => p.1 == k) then
      acc.map (fun p => if p.1 == k then (p.1, p.2 ++ [x]) else p)
    else acc ++ [(k, [x])]) []

/-- One observable effect of a command handler: a VS Code API call or a
`state` method call, in program order. -/
inductive Event where
  | showError (msg : String)
  | showInfo (filename : String)
  | parseWorkspace
  | parseDocument
  | cancelAiRequest
  | requestAI (fragment : Fragment) (templateId : Option String) (label : String)
  | showQuickPickSpec
  | showQuickPickTemplate
  | showInputBox
  | saveAll
  | readFile (filename : String)
  | writeFile (filename : String) (content : String)
  | executeCommand (cmd : String)
  | openExternal
  | showTextDocument (filename : String)
  | setSelection (pos : Nat × Nat)
  | revealRange
deriving DecidableEq

/-- The options record stored in `state.aiRequest.options`. -/
structure AiRequestOptions where
  fragment : Option Fragment
  template : Option PromptTemplate
  label : String
deriving DecidableEq

/-- The single current-or-most-recent AI request record (`state.aiRequest`). -/
structure AiRequest where
  options : AiRequestOptions
deriving DecidableEq

/-- The slice of `ExtensionState` read or written by `fragmentcommands.ts`:
the parsed project, the single AiRequest record, and whether a generation
is currently running. -/
structure ExtensionState where
  project : Project
  aiRequest : Option AiRequest
  running : Bool
deriving DecidableEq

/-- An open or visible text document as seen through the VS Code API. -/
structure OpenDoc where
  path : String
  isDirty : Bool
deriving DecidableEq

/-- The environment oracle: the answers the VS Code API and the parser give
at each suspension point of a handler run. -/
structure Env where
  /-- `vscode.workspace.textDocuments`. -/
  textDocuments : List OpenDoc
  /-- `vscode.window.visibleTextEditors` (their documents). -/
  visibleEditors : List OpenDoc
  /-- The project produced by `state.parseWorkspace()`. -/
  workspaceProject : Project
  /-- The project produced by `state.parseDocument(document)`, if any. -/
  parsedProject : Option Project
  /-- The index the user picks in the GPSpec-file quick pick
  (`none` = dismissed). -/
  pickSpecIndex : Option Nat
  /-- The index the user picks in the template quick pick
  (`none` = dismissed). -/
  pickTemplateIndex : Option Nat
  /-- The text entered in the refinement input box (`none` = dismissed). -/
  inputBoxText : Option String
  /-- `vscode.workspace.fs.readFile`, decoded. -/
  fileContents : String → String
  /-- `fragment.applicableTemplates()` (the coarch-core applicability
  predicate is outside the given sources, so it is an oracle here). -/
  applicable : Fragment → List PromptTemplate

/-- Modelled from the spec (§4.3): `state.cancelAiRequest()` aborts any
running generation and returns to `Idle`; the last AiRequest record is kept
for `resumePrevious`-style reads. -/
def cancelAiRequest (st : ExtensionState) : ExtensionState × List Event :=
  ({ st with running := false }, [Event.cancelAiRequest])

/-- Modelled from the spec (§4.3): `state.requestAI` produces a new
AiRequest replacing any previous record and transitions to `Running`. -/
def requestAI (st : ExtensionState) (fragment : Fragment)
    (template : Option PromptTemplate) (label : String) : ExtensionState × List Event :=
  ({ st with
      aiRequest := some ⟨⟨some fragment, template, label⟩⟩
      running := true },
    [Event.requestAI fragment (template.map (fun t => t.id)) label])

/-- The message shown by `checkSaved` when a dirty document blocks the run. -/
def dirtyMsg : String :=
  "GPTool cancelled. Please save all files before running GPTools."

/-- The message shown by `fragmentPrompt` when no fragment resolves. -/
def notFoundMsg : String :=
  "GPTools - sorry, we could not find where to apply the tool. Please try to launch GPTools from the editor."

/-- `checkSaved`: blocks with an error message when any open text document
is dirty; otherwise re-parses the workspace and reports success. -/
def checkSaved (env : Env) (st : ExtensionState) : Bool × ExtensionState × List Event :=
  if env.textDocuments.any (fun d => d.isDirty) then
    (false, st, [Event.showError dirtyMsg])
  else
    (true, { st with project := env.workspaceProject }, [Event.parseWorkspace])

/-- The quick-pick item type of `templatesToQuickPickItems`: a
`vscode.QuickPickItem` extended with the optional `template` and `action`
payloads. -/
structure TemplateQuickPickItem where
  label : String
  description : Option String := none
  isSeparator : Bool := false
  template : Option PromptTemplate := none
  action : Option String := none
deriving DecidableEq

/-- The trailing "Create a new GPTool script..." escape action. -/
def createActionItem : TemplateQuickPickItem :=
  { label := "Create a new GPTool script..."
    description := some "Create a new gptool script in the current workspace."
    action := some "create" }

/-- The trailing "View GPTools Discussions..." escape action. -/
def discussionsActionItem : TemplateQuickPickItem :=
  { label := "View GPTools Discussions..."
    description := some "Open the Discussions tab in the GPTools GitHub."
    action := some "discussions" }

/-- `templatesToQuickPickItems`: groups the templates with `groupBy`, emits
a separator and the group's items per group, then a blank separator and the
two escape actions. -/
def templatesToQuickPickItems (templates : List PromptTemplate) :
    List TemplateQuickPickItem :=
  let cats := groupBy templates templateGroup
  let items := cats.foldl (fun items cat =>
    items ++ [{ label := cat.1, isSeparator := true }] ++
      cat.2.map (fun template =>
        { label := template.title
          description := some (template.id ++ " " ++ (template.description.getD ""))
          template := some template })) []
  items ++ [{ label := "", isSeparator := true }] ++
    [createActionItem, discussionsActionItem]

/-- `pickTemplate`: presents the applicable templates and maps the user's
selection to a template, an escape-action side effect, or nothing. -/
def pickTemplate (env : Env) (fragment : Fragment) :
    Option PromptTemplate × List Event :=
  match env.pickTemplateIndex.bind
      (fun i => (templatesToQuickPickItems (env.applicable fragment)).get? i) with
  | none => (none, [Event.showQuickPickTemplate])
  | some picked =>
    if picked.action == some "create" then
      (none, [Event.showQuickPickTemplate, Event.executeCommand "coarch.prompt.create"])
    else if picked.action == some "discussions" then
      (none, [Event.showQuickPickTemplate, Event.openExternal])
    else
      (picked.template, [Event.showQuickPickTemplate])

/-- `fragmentExecute`: re-resolves the fragment by `fullId` (falling back to
the captured handle), looks the template up, cancels any previous request
and starts the new one. -/
def fragmentExecute (st : ExtensionState) (fragment : Option Fragment)
    (label : String) (templateId : String) : ExtensionState × List Event :=
  match fragment with
  | none => (st, [])
  | some frag =>
    let frag := (st.project.lookupFullId frag.fullId).getD frag
    let template := st.project.getTemplate templateId
    let (st, tr1) := cancelAiRequest st
    let (st, tr2) := requestAI st frag template label
    (st, tr1 ++ tr2)

/-- The fragment produced by the visible-editor fallback of `resolveSpec`:
find a visible editor at the path, parse it on demand and take the first
root file's first fragment.  (The TypeScript optional chain
`prj?.rootFiles?.[0].fragments?.[0]` would throw when `rootFiles` is empty;
the embedding returns `none` there.) -/
def visibleParse (env : Env) (path : String) : Option Fragment × List Event :=
  match env.visibleEditors.find? (fun d => d.path == path) with
  | none => (none, [])
  | some _ =>
    ((env.parsedProject.bind (fun prj => prj.rootFiles.head?)).bind
        (fun f => f.fragments.head?),
      [Event.parseDocument])

/-- The "next" logic of `resolveSpec` (lines 83–86): an absent identifier
is replaced by the previous AI request's fragment id, when both exist. -/
def substPrevious (st : ExtensionState) : Option FragIdent → Option FragIdent
  | none =>
    match st.aiRequest with
    | some req => (req.options.fragment).map (fun f => FragIdent.str f.fullId)
    | none => none
  | some f => some f

/-- Line 88 of `resolveSpec`: a `Uri` identifier becomes its path string. -/
def uriToPath : Option FragIdent → Option FragIdent
  | some (.uri p) => some (.str p)
  | f => f

/-- The documents whose roots carry a reference to the path `s`
(the `gpspecs` filter of `resolveSpec`). -/
def referencingFiles (p : Project) (s : String) : List Document :=
  p.rootFiles.filter (fun f =>
    f.roots.any (fun r => r.references.any (fun ref => ref.filename == s)))

/-- The referenced-file branch of `resolveSpec` (lines 94–137): when at
least one document references the path a quick pick over those documents
plus a "create new" entry is shown; with no referencing document the pick
is skipped and the visible-editor fallback runs directly. -/
def resolveSpecPath (env : Env) (st : ExtensionState) (s : String) :
    Option Fragment × List Event :=
  if (referencingFiles st.project s).isEmpty then
    (rootFragmentOpt (visibleParse env s).1, (visibleParse env s).2)
  else
    match env.pickSpecIndex.bind
        (fun i => ((referencingFiles st.project s).map some ++ [none]).get? i) with
    | none => (none, [Event.showQuickPickSpec])
    | some (some file) =>
      (rootFragmentOpt file.roots.head?, [Event.showQuickPickSpec])
    | some none =>
      (rootFragmentOpt (visibleParse env s).1,
        Event.showQuickPickSpec :: (visibleParse env s).2)

/-- `resolveSpec`: the "next" logic substitutes the previous request's
fragment id for an absent identifier; a `Uri` becomes its path; a path
string not matching the specification-document suffix goes through the
referenced-file search with its quick pick; everything else goes through
`Project.resolveFragment`; the result is passed through `rootFragment`. -/
def resolveSpec (env : Env) (st : ExtensionState) (frag0 : Option FragIdent) :
    Option Fragment × List Event :=
  match uriToPath (substPrevious st frag0) with
  | some (.str s) =>
    if isGpspecPath s then
      (rootFragmentOpt (st.project.resolveFragment (some (.str s))), [])
    else
      resolveSpecPath env st s
  | f => (rootFragmentOpt (st.project.resolveFragment f), [])

/-- `fragmentPrompt`: the main command flow — saved-check, cancel, resolve,
template selection, then `fragmentExecute`. -/
def fragmentPrompt (env : Env) (st : ExtensionState) (frag : Option FragIdent)
    (template : Option PromptTemplate) : ExtensionState × List Event :=
  match checkSaved env st with
  | (false, st1, tr1) => (st1, tr1)
  | (true, st1, tr1) =>
    let (st2, tr2) := cancelAiRequest st1
    match resolveSpec env st2 frag with
    | (none, tr3) => (st2, tr1 ++ tr2 ++ tr3 ++ [Event.showError notFoundMsg])
    | (some fragment, tr3) =>
      match template with
      | some t =>
        let (st4, tr4) := fragmentExecute st2 (some fragment) t.title t.id
        (st4, tr1 ++ tr2 ++ tr3 ++ tr4)
      | none =>
        match pickTemplate env fragment with
        | (none, trp) => (st2, tr1 ++ tr2 ++ tr3 ++ trp)
        | (some t, trp) =>
          let (st4, tr4) := fragmentExecute st2 (some fragment) t.title t.id
          (st4, tr1 ++ tr2 ++ tr3 ++ trp ++ tr4)

/-- JavaScript's `content.split("\n")` over a character list: the
(possibly empty) segments between line feeds; never the empty list. -/
def splitNL : List Char → List (List Char)
  | [] => [[]]
  | c :: rest =>
    match splitNL rest with
    | [] => [[]]
    | l :: ls => if c = '\n' then [] :: l :: ls else (c :: l) :: ls

/-- JavaScript's `content.split("\n")` at the string level. -/
def splitLines (s : String) : List String :=
  (splitNL s.data).map String.mk

/-- JavaScript's `lines.join("\n")`. -/
def joinLines : List String → String
  | [] => ""
  | [l] => l
  | l :: l2 :: ls => l ++ "\n" ++ joinLines (l2 :: ls)

/-- Lines 163–167 of `fragmentRefine`: split the content on line feeds,
splice the `-   <refinement>` list item in at the fragment's end line, and
rejoin. -/
def insertRefinement (content : String) (endLine : Nat) (refinement : String) : String :=
  joinLines ((splitLines content).take endLine ++ ["-   " ++ refinement] ++
    (splitLines content).drop endLine)

/-- `fragmentRefine`: cancel, re-resolve the previous request's fragment,
ask for a refinement note, splice it into the file and re-run the previous
template through `fragmentPrompt`.  (When `state.aiRequest` is absent here
the TypeScript would throw reading `.options`; that point is unreachable
because `resolveSpec undefined` fails first, and the embedding reads the
template through `Option.bind`.) -/
def fragmentRefine (env : Env) (st : ExtensionState) : ExtensionState × List Event :=
  let (st1, tr1) := cancelAiRequest st
  match resolveSpec env st1 none with
  | (none, tr2) => (st1, tr1 ++ tr2)
  | (some fragment, tr2) =>
    let template := st1.aiRequest.bind (fun req => req.options.template)
    match env.inputBoxText with
    | none => (st1, tr1 ++ tr2 ++ [Event.showInputBox])
    | some refinement =>
      if refinement == "" then (st1, tr1 ++ tr2 ++ [Event.showInputBox])
      else
        let content := env.fileContents fragment.filename
        let newContent := insertRefinement content fragment.endPos.1 refinement
        let (st2, tr3) := fragmentPrompt env st1 (some (.frag fragment)) template
        (st2, tr1 ++ tr2 ++
          [Event.showInputBox, Event.saveAll, Event.readFile fragment.filename,
            Event.writeFile fragment.filename newContent, Event.saveAll,
            Event.showInfo fragment.filename] ++ tr3)

/-- `fragmentNavigate`: resolve the identifier; on failure return without
any effect, otherwise open the document, move the selection to the
fragment's start position and reveal it. -/
def fragmentNavigate (st : ExtensionState) (ident : FragIdent) :
    ExtensionState × List Event :=
  match st.project.resolveFragment (some ident) with
  | none => (st, [])
  | some fragment =>
    (st, [Event.showTextDocument fragment.filename,
      Event.setSelection fragment.startPos, Event.revealRange])

/-- Is this event a `state.requestAI` dispatch? -/
def isReqEvent : Event → Bool
  | .requestAI _ _ _ => true
  | _ => false

/-- `cancelBeforeReq seen tr` scans a trace and checks that every
`requestAI` dispatch happens while a cancellation is pending (`seen`):
a `cancelAiRequest` arms the flag, a `requestAI` requires it and disarms
it again.  `cancelBeforeReq false tr = true` therefore means every request
in `tr` is preceded by a cancellation with no other request in between —
at most one request is ever in flight. -/
def cancelBeforeReq (seen : Bool) : List Event → Bool
  | [] => true
  | .cancelAiRequest :: rest => cancelBeforeReq true rest
  | .requestAI _ _ _ :: rest => seen && cancelBeforeReq false rest
  | _ :: rest => cancelBeforeReq seen rest

/-- The value of the `cancelBeforeReq` flag after scanning a trace. -/
def seenAfter (seen : Bool) : List Event → Bool
  | [] => seen
  | .cancelAiRequest :: rest => seenAfter true rest
  | .requestAI _ _ _ :: rest => seenAfter false rest
  | _ :: rest => seenAfter seen rest

/-! Concrete fixtures used by witnesses and counterexamples. -/

/-- A `references` entry naming the non-specification file `util.ts`. -/
def refUtil : Reference := ⟨"util.ts"⟩

/-- A root fragment of the document `doc.gpspec.md` referencing `util.ts`. -/
def fragA : Fragment :=
  .mk "doc.gpspec.md" "A" (0, 0) (1, 0) [refUtil] "doc.gpspec.md" none

/-- The parsed document `doc.gpspec.md` with the single root `fragA`. -/
def docA : Document := ⟨"doc.gpspec.md", [fragA], [fragA]⟩

/-- A catalog template. -/
def tmpl0 : PromptTemplate := ⟨"t0", "Tool Zero", none, "g"⟩

/-- A project holding `docA`, its fragment lookup entry and `tmpl0`. -/
def projA : Project := ⟨[docA], [("doc.gpspec.md", fragA)], [tmpl0]⟩

/-- A baseline environment: no open or visible documents, every picker
dismissed, workspace parses to `projA`. -/
def envBase : Env :=
  { textDocuments := []
    visibleEditors := []
    workspaceProject := projA
    parsedProject := none
    pickSpecIndex := none
    pickTemplateIndex := none
    inputBoxText := none
    fileContents := fun _ => "top\nbody"
    applicable := fun _ => [] }

/-- A state whose previous AI request targeted `fragA` with `tmpl0`. -/
def stA : ExtensionState :=
  { project := projA
    aiRequest := some ⟨⟨some fragA, some tmpl0, "lbl"⟩⟩
    running := false }

/-- A state with no prior AI request. -/
def stNone : ExtensionState :=
  { project := projA, aiRequest := none, running := false }

/-- A fragment whose `fullId` is absent from `projA.fragmentByFullId`. -/
def fragStale : Fragment := .mk "gone" "S" (0, 0) (0, 0) [] "doc.gpspec.md" none

/-- The 5-line document of the specification's refinement example. -/
def doc5 : String := "line0\nline1\nline2\nline3\nline4"

/-- An environment with one dirty open document. -/
def envDirty : Env := { envBase with textDocuments := [⟨"f.md", true⟩] }

/-! ## Helper lemmas -/

theorem rootFragment_parent : ∀ f : Fragment, (rootFragment f).parent = none
  | .mk i t s e r fl none => by simp [rootFragment, Fragment.parent]
  | .mk _ _ _ _ _ _ (some p) => by
      rw [rootFragment]
      exact rootFragment_parent p

theorem rootFragmentOpt_parent {x : Option Fragment} {f : Fragment}
    (h : rootFragmentOpt x = some f) : f.parent = none := by
  cases x with
  | none => simp [rootFragmentOpt] at h
  | some g =>
    have h' : rootFragment g = f := by simpa [rootFragmentOpt] using h
    subst h'
    exact rootFragment_parent g

theorem visibleParse_events (env : Env) (p : String) :
    ∀ e ∈ (visibleParse env p).2, e = Event.parseDocument := by
  unfold visibleParse
  split <;> simp

theorem resolveSpecPath_events (env : Env) (st : ExtensionState) (s : String) :
    ∀ e ∈ (resolveSpecPath env st s).2,
      e = Event.showQuickPickSpec ∨ e = Event.parseDocument := by
  unfold resolveSpecPath
  intro e he
  split at he
  · exact Or.inr (visibleParse_events env _ e he)
  · split at he
    · simp at he
      exact Or.inl he
    · simp at he
      exact Or.inl he
    · simp at he
      rcases he with he | he
      · exact Or.inl he
      · exact Or.inr (visibleParse_events env _ e he)

theorem resolveSpec_events (env : Env) (st : ExtensionState) (frag0 : Option FragIdent) :
    ∀ e ∈ (resolveSpec env st frag0).2,
      e = Event.showQuickPickSpec ∨ e = Event.parseDocument := by
  unfold resolveSpec
  intro e he
  split at he
  · split at he
    · simp at he
    · exact resolveSpecPath_events env st _ e he
  · simp at he

theorem checkSaved_events (env : Env) (st : ExtensionState) :
    ∀ e ∈ (checkSaved env st).2.2,
      e = Event.showError dirtyMsg ∨ e = Event.parseWorkspace := by
  unfold checkSaved
  split <;> simp

theorem cancelBeforeReq_append (A B : List Event) (s : Bool) :
    cancelBeforeReq s (A ++ B) =
      (cancelBeforeReq s A && cancelBeforeReq (seenAfter s A) B) := by
  induction A generalizing s with
  | nil => simp [cancelBeforeReq, seenAfter]
  | cons e rest ih =>
    cases e <;>
      simp [cancelBeforeReq, seenAfter, ih, Bool.and_assoc]

theorem cancelBeforeReq_of_noReq :
    ∀ tr : List Event, (∀ e ∈ tr, isReqEvent e = false) →
      ∀ s, cancelBeforeReq s tr = true := by
  intro tr
  induction tr with
  | nil => intro _ s; rfl
  | cons e rest ih =>
    intro h s
    have hrest : ∀ s', cancelBeforeReq s' rest = true :=
      ih (fun x hx => h x (List.mem_cons_of_mem _ hx))
    have hhead := h e (List.mem_cons_self e rest)
    cases e
    case cancelAiRequest => simpa [cancelBeforeReq] using hrest true
    case requestAI => simp [isReqEvent] at hhead
    all_goals simpa [cancelBeforeReq] using hrest s

theorem cancelBeforeReq_append_all {A B : List Event}
    (hA : ∀ s, cancelBeforeReq s A = true) (hB : ∀ s, cancelBeforeReq s B = true) :
    ∀ s, cancelBeforeReq s (A ++ B) = true := by
  intro s
  rw [cancelBeforeReq_append]
  simp [hA, hB]

theorem cancelBeforeReq_cancelAiRequest :
    ∀ s, cancelBeforeReq s [Event.cancelAiRequest] = true := by
  intro s; rfl

theorem cancelBeforeReq_fragmentExecute (st : ExtensionState)
    (fragment : Option Fragment) (label templateId : String) :
    ∀ s, cancelBeforeReq s (fragmentExecute st fragment label templateId).2 = true := by
  intro s
  cases fragment <;>
    simp [fragmentExecute, cancelAiRequest, requestAI, cancelBeforeReq]

theorem pickTemplate_events (env : Env) (fragment : Fragment) :
    ∀ e ∈ (pickTemplate env fragment).2,
      e = Event.showQuickPickTemplate ∨
        e = Event.executeCommand "coarch.prompt.create" ∨ e = Event.openExternal := by
  unfold pickTemplate
  split
  · simp
  · split
    · simp
    · split <;> simp

theorem checkSaved_noReq (env : Env) (st : ExtensionState) :
    ∀ e ∈ (checkSaved env st).2.2, isReqEvent e = false := by
  intro e he
  rcases checkSaved_events env st e he with h | h <;> simp [h, isReqEvent]

theorem resolveSpec_noReq (env : Env) (st : ExtensionState) (frag0 : Option FragIdent) :
    ∀ e ∈ (resolveSpec env st frag0).2, isReqEvent e = false := by
  intro e he
  rcases resolveSpec_events env st frag0 e he with h | h <;> simp [h, isReqEvent]

theorem pickTemplate_noReq (env : Env) (fragment : Fragment) :
    ∀ e ∈ (pickTemplate env fragment).2, isReqEvent e = false := by
  intro e he
  rcases pickTemplate_events env fragment e he with h | h | h <;> simp [h, isReqEvent]

theorem fragmentExecute_some (st : ExtensionState) (frag : Fragment)
    (label templateId : String) :
    fragmentExecute st (some frag) label templateId =
      ({ st with
          aiRequest := some ⟨⟨some ((st.project.lookupFullId frag.fullId).getD frag),
            st.project.getTemplate templateId, label⟩⟩
          running := true },
        [Event.cancelAiRequest,
          Event.requestAI ((st.project.lookupFullId frag.fullId).getD frag)
            ((st.project.getTemplate templateId).map (fun t => t.id)) label]) := by
  simp [fragmentExecute, cancelAiRequest, requestAI]

theorem cancelBeforeReq_cancelReqPair (f : Fragment) (t : Option String) (l : String) :
    ∀ s, cancelBeforeReq s [Event.cancelAiRequest, Event.requestAI f t l] = true := by
  intro s; rfl

theorem cancelBeforeReq_fragmentPrompt (env : Env) (st : ExtensionState)
    (frag : Option FragIdent) (template : Option PromptTemplate) :
    ∀ s, cancelBeforeReq s (fragmentPrompt env st frag template).2 = true := by
  unfold fragmentPrompt
  split
  next st1 tr1 heq =>
    have h1 : ∀ e ∈ tr1, isReqEvent e = false := by
      have h := checkSaved_noReq env st
      rw [heq] at h
      exact h
    exact cancelBeforeReq_of_noReq tr1 h1
  next st1 tr1 heq =>
    have h1 : ∀ s, cancelBeforeReq s tr1 = true := by
      apply cancelBeforeReq_of_noReq
      have h := checkSaved_noReq env st
      rw [heq] at h
      exact h
    simp only [cancelAiRequest]
    split
    next tr3 heq3 =>
      have h3 : ∀ s, cancelBeforeReq s tr3 = true := by
        apply cancelBeforeReq_of_noReq
        have h := resolveSpec_noReq env { st1 with running := false } frag
        rw [heq3] at h
        exact h
      intro s
      simp [cancelBeforeReq_append, cancelBeforeReq, seenAfter, h1, h3]
    next fragment tr3 heq3 =>
      have h3 : ∀ s, cancelBeforeReq s tr3 = true := by
        apply cancelBeforeReq_of_noReq
        have h := resolveSpec_noReq env { st1 with running := false } frag
        rw [heq3] at h
        exact h
      split
      next t =>
        intro s
        simp [fragmentExecute, cancelAiRequest, requestAI,
          cancelBeforeReq_append, cancelBeforeReq, seenAfter, h1, h3]
      next =>
        split
        next trp heqp =>
          have hp : ∀ s, cancelBeforeReq s trp = true := by
            apply cancelBeforeReq_of_noReq
            have h := pickTemplate_noReq env fragment
            rw [heqp] at h
            exact h
          intro s
          simp [cancelBeforeReq_append, cancelBeforeReq, seenAfter, h1, h3, hp]
        next t trp heqp =>
          have hp : ∀ s, cancelBeforeReq s trp = true := by
            apply cancelBeforeReq_of_noReq
            have h := pickTemplate_noReq env fragment
            rw [heqp] at h
            exact h
          intro s
          simp [fragmentExecute, cancelAiRequest, requestAI,
            cancelBeforeReq_append, cancelBeforeReq, seenAfter, h1, h3, hp]

theorem cancelBeforeReq_fragmentRefine (env : Env) (st : ExtensionState) :
    ∀ s, cancelBeforeReq s (fragmentRefine env st).2 = true := by
  unfold fragmentRefine
  simp only [cancelAiRequest]
  split
  next tr2 heq2 =>
    have h2 : ∀ s, cancelBeforeReq s tr2 = true := by
      apply cancelBeforeReq_of_noReq
      have h := resolveSpec_noReq env { st with running := false } none
      rw [heq2] at h
      exact h
    exact cancelBeforeReq_append_all (fun _ => rfl) h2
  next fragment tr2 heq2 =>
    have h2 : ∀ s, cancelBeforeReq s tr2 = true := by
      apply cancelBeforeReq_of_noReq
      have h := resolveSpec_noReq env { st with running := false } none
      rw [heq2] at h
      exact h
    split
    · intro s
      simp [cancelBeforeReq_append, cancelBeforeReq, seenAfter, h2]
    next refinement =>
      split
      · intro s
        simp [cancelBeforeReq_append, cancelBeforeReq, seenAfter, h2]
      · have h3 : ∀ s, cancelBeforeReq s
            (fragmentPrompt env { st with running := false } (some (.frag fragment))
              (Option.bind ({ st with running := false } : ExtensionState).aiRequest
                (fun req => req.options.template))).2 = true :=
          cancelBeforeReq_fragmentPrompt env { st with running := false }
            (some (.frag fragment))
            (Option.bind ({ st with running := false } : ExtensionState).aiRequest
              (fun req => req.options.template))
        intro s
        simp [cancelBeforeReq_append, cancelBeforeReq, seenAfter, h2, h3]

theorem resolveSpec_noWrite (env : Env) (st : ExtensionState) (frag0 : Option FragIdent)
    (fn c : String) : Event.writeFile fn c ∉ (resolveSpec env st frag0).2 := by
  intro hmem
  rcases resolveSpec_events env st frag0 _ hmem with h | h <;> simp at h

theorem resolveSpecPath_root (env : Env) (st : ExtensionState) (s : String)
    (f : Fragment) (h : (resolveSpecPath env st s).1 = some f) : f.parent = none := by
  unfold resolveSpecPath at h
  split at h
  · exact rootFragmentOpt_parent (by simpa using h)
  · split at h
    · simp at h
    · exact rootFragmentOpt_parent (by simpa using h)
    · exact rootFragmentOpt_parent (by simpa using h)

theorem splitNL_ne_nil : ∀ cs : List Char, splitNL cs ≠ []
  | [] => by simp [splitNL]
  | c :: rest => by
    have h := splitNL_ne_nil rest
    cases hr : splitNL rest with
    | nil => exact absurd hr h
    | cons l ls =>
      simp only [splitNL, hr]
      split <;> simp

theorem splitNL_no_nl : ∀ cs : List Char, ∀ l ∈ splitNL cs, '\n' ∉ l := by
  intro cs
  induction cs with
  | nil => simp [splitNL]
  | cons c rest ih =>
    intro l hl
    cases hr : splitNL rest with
    | nil => exact absurd hr (splitNL_ne_nil rest)
    | cons l0 ls =>
      have hstep : splitNL (c :: rest) =
          if c = '\n' then [] :: l0 :: ls else (c :: l0) :: ls := by
        simp [splitNL, hr]
      rw [hstep] at hl
      by_cases hc : c = '\n'
      · rw [if_pos hc] at hl
        rcases List.mem_cons.mp hl with hl | hl
        · simp [hl]
        · exact ih l (hr ▸ hl)
      · rw [if_neg hc] at hl
        rcases List.mem_cons.mp hl with hl | hl
        · subst hl
          intro hmem
          rcases List.mem_cons.mp hmem with hmem | hmem
          · exact hc hmem.symm
          · exact ih l0 (hr ▸ List.mem_cons_self l0 ls) hmem
        · exact ih l (hr ▸ List.mem_cons_of_mem l0 hl)

theorem splitNL_no_nl_id (cs : List Char) (h : '\n' ∉ cs) : splitNL cs = [cs] := by
  induction cs with
  | nil => rfl
  | cons c rest ih =>
    have hc : ¬ c = '\n' := fun hc => h (hc ▸ List.mem_cons_self c rest)
    have hrest : '\n' ∉ rest := fun hm => h (List.mem_cons_of_mem c hm)
    simp [splitNL, ih hrest, hc]

theorem splitNL_append (xs ys : List Char) (l : List Char) (ls' : List (List Char))
    (h : '\n' ∉ xs) (hys : splitNL ys = l :: ls') :
    splitNL (xs ++ ys) = (xs ++ l) :: ls' := by
  induction xs with
  | nil => simpa using hys
  | cons c cs ih =>
    have hc : ¬ c = '\n' := fun hc => h (hc ▸ List.mem_cons_self c cs)
    have hcs : '\n' ∉ cs := fun hm => h (List.mem_cons_of_mem c hm)
    simp [splitNL, ih hcs, hc]

theorem splitLines_joinLines :
    ∀ ss : List String, (∀ s ∈ ss, '\n' ∉ s.data) → ss ≠ [] →
      splitLines (joinLines ss) = ss
  | [], _, hne => absurd rfl hne
  | [s], h, _ => by
    have hs : '\n' ∉ s.data := h s (List.mem_cons_self s [])
    simp [splitLines, joinLines, splitNL_no_nl_id s.data hs]
  | s :: s2 :: rest, h, _ => by
    have hs : '\n' ∉ s.data := h s (List.mem_cons_self s (s2 :: rest))
    have hrest : ∀ x ∈ s2 :: rest, '\n' ∉ x.data :=
      fun x hx => h x (List.mem_cons_of_mem s hx)
    have ihr : splitLines (joinLines (s2 :: rest)) = s2 :: rest :=
      splitLines_joinLines (s2 :: rest) hrest (by simp)
    have hdata : (s ++ "\n" ++ joinLines (s2 :: rest)).data =
        s.data ++ ('\n' :: (joinLines (s2 :: rest)).data) := by
      simp [String.data_append]
    obtain ⟨l0, ls0, hsplit⟩ :
        ∃ l0 ls0, splitNL (joinLines (s2 :: rest)).data = l0 :: ls0 := by
      cases hx : splitNL (joinLines (s2 :: rest)).data with
      | nil => exact absurd hx (splitNL_ne_nil _)
      | cons a b => exact ⟨a, b, rfl⟩
    have hnl : splitNL ('\n' :: (joinLines (s2 :: rest)).data) =
        [] :: l0 :: ls0 := by
      simp [splitNL, hsplit]
    have : splitNL (s ++ "\n" ++ joinLines (s2 :: rest)).data =
        (s.data ++ []) :: l0 :: ls0 := by
      rw [hdata]
      exact splitNL_append s.data _ [] (l0 :: ls0) hs hnl
    calc splitLines (joinLines (s :: s2 :: rest))
        = (splitNL (s ++ "\n" ++ joinLines (s2 :: rest)).data).map String.mk := rfl
      _ = ((s.data ++ []) :: l0 :: ls0).map String.mk := by rw [this]
      _ = s :: (splitNL (joinLines (s2 :: rest)).data).map String.mk := by
            simp [hsplit]
      _ = s :: s2 :: rest := by
            have := ihr
            simp only [splitLines] at this
            rw [this]

theorem splitLines_elem_no_nl (s : String) : ∀ l ∈ splitLines s, '\n' ∉ l.data := by
  intro l hl
  rcases List.mem_map.mp hl with ⟨cs, hcs, rfl⟩
  exact splitNL_no_nl s.data cs hcs

theorem groupFold_action_none (cats : List (String × List PromptTemplate))
    (init : List TemplateQuickPickItem) (hinit : ∀ it ∈ init, it.action = none) :
    ∀ it ∈ cats.foldl (fun items cat =>
        items ++ [{ label := cat.1, isSeparator := true }] ++
          cat.2.map (fun template =>
            { label := template.title
              description := some (template.id ++ " " ++ (template.description.getD ""))
              template := some template })) init,
      it.action = none := by
  induction cats generalizing init with
  | nil => simpa using hinit
  | cons c rest ih =>
    intro it hit
    refine ih _ ?_ it hit
    intro x hx
    rcases List.mem_append.mp hx with hx | hx
    · rcases List.mem_append.mp hx with hx | hx
      · exact hinit x hx
      · simp only [List.mem_singleton] at hx
        subst hx
        rfl
    · rcases List.mem_map.mp hx with ⟨t, _, rfl⟩
      rfl

/-! ## Claims -/

/-- C1: in both flows that dispatch a new AI generation request
(`fragmentPrompt`, the prompt flow, and `fragmentRefine`, the refinement
flow) every `requestAI` dispatch in the effect trace is preceded by an
awaited `cancelAiRequest` with no other dispatch in between, so at no
point are two AiRequests in flight. -/
theorem claim_c1_cancel_before_request (env : Env) (st : ExtensionState)
    (frag : Option FragIdent) (template : Option PromptTemplate) :
    cancelBeforeReq false (fragmentPrompt env st frag template).2 = true ∧
    cancelBeforeReq false (fragmentRefine env st).2 = true :=
  ⟨cancelBeforeReq_fragmentPrompt env st frag template false,
    cancelBeforeReq_fragmentRefine env st false⟩

/-- C2 counterexample: exactly one parsed document (`docA`) references the
path `util.ts`, yet `resolveSpec` surfaces the disambiguation quick pick,
and when the user dismisses it resolution yields nothing — it does not
proceed automatically to the document's first root fragment. -/
theorem claim_c2_counterexample :
    (referencingFiles stA.project "util.ts").length = 1 ∧
    Event.showQuickPickSpec ∈ (resolveSpec envBase stA (some (.str "util.ts"))).2 ∧
    (resolveSpec envBase stA (some (.str "util.ts"))).1 = none := by
  decide

/-- C2 as amended: for a path string not matching the
specification-document suffix, the disambiguation quick pick is surfaced
exactly when at least one parsed document's roots reference the path —
including when exactly one does; resolution proceeds without asking only
when no document references it. -/
theorem claim_c2_pick_surfaced_iff (env : Env) (st : ExtensionState) (s : String)
    (h : isGpspecPath s = false) :
    (Event.showQuickPickSpec ∈ (resolveSpec env st (some (.str s))).2) ↔
      referencingFiles st.project s ≠ [] := by
  unfold resolveSpec
  simp only [substPrevious, uriToPath, h, Bool.false_eq_true, if_false]
  unfold resolveSpecPath
  split
  next hempty =>
    have hnil : referencingFiles st.project s = [] := by
      simpa [List.isEmpty_iff] using hempty
    constructor
    · intro hmem
      have := visibleParse_events env s _ hmem
      simp at this
    · intro hne
      exact absurd hnil hne
  next hne =>
    have hnil : referencingFiles st.project s ≠ [] := by
      simpa [List.isEmpty_iff] using hne
    split <;> simp [hnil]

theorem claim_c2_pick_surfaced_iff_witness :
    isGpspecPath "util.ts" = false ∧
    Event.showQuickPickSpec ∈ (resolveSpec envBase stA (some (.str "util.ts"))).2 :=
  ⟨by decide,
    (claim_c2_pick_surfaced_iff envBase stA "util.ts" (by decide)).mpr (by decide)⟩

/-- C3 counterexample: `fragStale.fullId` is absent from the current
`fragmentByFullId`, yet `fragmentExecute` does not treat this as NotFound:
it dispatches the request targeting the stale handle itself. -/
theorem claim_c3_counterexample :
    stA.project.lookupFullId fragStale.fullId = none ∧
    (fragmentExecute stA (some fragStale) "lbl" "t0").2 =
      [Event.cancelAiRequest, Event.requestAI fragStale (some "t0") "lbl"] := by
  decide

/-- C3 as amended: before dispatch the fragment handle is re-resolved by
`fullId` against the current `fragmentByFullId` and the fresh fragment is
used when present, but when the id is absent (stale) the captured handle
is used as-is and the request still proceeds — staleness is not a NotFound
outcome at this point. -/
theorem claim_c3_stale_fallback (st : ExtensionState) (f : Fragment)
    (label templateId : String) :
    (fragmentExecute st (some f) label templateId).2 =
      [Event.cancelAiRequest,
        Event.requestAI ((st.project.lookupFullId f.fullId).getD f)
          ((st.project.getTemplate templateId).map (fun t => t.id)) label] := by
  simp [fragmentExecute, cancelAiRequest, requestAI]

/-- C4 counterexample: for the specification's own example (5-line
document, `endPos = [3, 0]` and note `do X`) the inserted line is
`-   do X` — a dash followed by three spaces — not `- do X`. -/
theorem claim_c4_counterexample :
    splitLines (insertRefinement doc5 3 "do X") =
      ["line0", "line1", "line2", "-   do X", "line3", "line4"] ∧
    ¬ splitLines (insertRefinement doc5 3 "do X") =
      ["line0", "line1", "line2", "- do X", "line3", "line4"] := by
  decide

/-- C4 as amended: applying the refinement splits the document on
line-feed boundaries, inserts exactly one new line whose text is
`-   <note>` (dash and three spaces, not `- <note>`) at the index given by
the fragment's `endPos` line coordinate, and rejoins; in particular the
5-line example yields a 6-line document with `-   do X` at index 3 and all
other lines unchanged. -/
theorem claim_c4_insert_line (content note : String) (n : Nat)
    (hn : '\n' ∉ note.data) :
    splitLines (insertRefinement content n note) =
      (splitLines content).take n ++ ["-   " ++ note] ++
        (splitLines content).drop n := by
  unfold insertRefinement
  apply splitLines_joinLines
  · intro s hs
    rcases List.mem_append.mp hs with hs | hs
    · rcases List.mem_append.mp hs with hs | hs
      · exact splitLines_elem_no_nl content s (List.mem_of_mem_take hs)
      · simp only [List.mem_singleton] at hs
        subst hs
        rw [String.data_append]
        intro hmem
        rcases List.mem_append.mp hmem with hmem | hmem
        · simp at hmem
        · exact hn hmem
    · exact splitLines_elem_no_nl content s (List.mem_of_mem_drop hs)
  · simp

theorem claim_c4_insert_line_witness :
    ('\n' ∉ ("do X" : String).data) ∧
    splitLines (insertRefinement doc5 3 "do X") =
      (splitLines doc5).take 3 ++ ["-   " ++ "do X"] ++ (splitLines doc5).drop 3 :=
  ⟨by decide, claim_c4_insert_line doc5 "do X" 3 (by decide)⟩

/-- C5: when any open text document is dirty, `fragmentPrompt` stops with
the blocking message as its single effect — before any cancellation,
resolution or template selection — and returns the caller's state
unchanged, so no AiRequest is created. -/
theorem claim_c5_dirty_blocks (env : Env) (st : ExtensionState)
    (frag : Option FragIdent) (template : Option PromptTemplate)
    (h : env.textDocuments.any (fun d => d.isDirty) = true) :
    fragmentPrompt env st frag template = (st, [Event.showError dirtyMsg]) := by
  simp [fragmentPrompt, checkSaved, h]

theorem claim_c5_dirty_blocks_witness :
    envDirty.textDocuments.any (fun d => d.isDirty) = true ∧
    fragmentPrompt envDirty stA none none = (stA, [Event.showError dirtyMsg]) :=
  ⟨by decide, claim_c5_dirty_blocks envDirty stA none none (by decide)⟩

/-- C6: for every template list, the quick-pick item sequence produced by
`templatesToQuickPickItems` ends with the two synthetic escape actions
(create a new template; view community discussion) after all template
groups — in particular it is never empty. -/
theorem claim_c6_escape_actions (templates : List PromptTemplate) :
    ∃ pre, templatesToQuickPickItems templates =
        pre ++ [createActionItem, discussionsActionItem] ∧
      ∀ it ∈ pre, it.action = none := by
  refine ⟨(groupBy templates templateGroup).foldl
      (fun items cat =>
        items ++ [{ label := cat.1, isSeparator := true }] ++
          cat.2.map (fun template =>
            { label := template.title
              description := some (template.id ++ " " ++ (template.description.getD ""))
              template := some template }))
      [] ++ [{ label := "", isSeparator := true }], ?_, ?_⟩
  · rfl
  · intro it hit
    rcases List.mem_append.mp hit with hit | hit
    · exact groupFold_action_none _ _ (by simp) it hit
    · simp only [List.mem_singleton] at hit
      subst hit
      rfl

/-- C7 counterexample: the whitespace-only note `" "` passes the
`if (!refinement)` check, so `fragmentRefine` does perform the document
mutation, writing the spliced `-    ` line to the file. -/
theorem claim_c7_counterexample :
    ({ envBase with inputBoxText := some " " } : Env).inputBoxText = some " " ∧
    (" " : String).data.all Char.isWhitespace = true ∧
    Event.writeFile "doc.gpspec.md" "top\n-    \nbody" ∈
      (fragmentRefine { envBase with inputBoxText := some " " } stA).2 := by
  decide

/-- C7 as amended: the refinement insertion is unreachable with an empty
note — when the input box is dismissed or returns the empty string, no
file write happens — but whitespace-only notes are not rejected and do
reach the insertion. -/
theorem claim_c7_empty_note_no_write (env : Env) (st : ExtensionState)
    (h : env.inputBoxText = none ∨ env.inputBoxText = some "") :
    ∀ fn c, Event.writeFile fn c ∉ (fragmentRefine env st).2 := by
  intro fn c
  unfold fragmentRefine
  simp only [cancelAiRequest]
  split
  next tr2 heq2 =>
    have h2 := resolveSpec_noWrite env { st with running := false } none fn c
    rw [heq2] at h2
    simp [List.mem_append, h2]
  next fragment tr2 heq2 =>
    have h2 := resolveSpec_noWrite env { st with running := false } none fn c
    rw [heq2] at h2
    rcases h with h | h <;> simp [h, List.mem_append, h2]

theorem claim_c7_empty_note_no_write_witness :
    (envBase.inputBoxText = none ∨ envBase.inputBoxText = some "") ∧
    Event.writeFile "doc.gpspec.md" "x" ∉ (fragmentRefine envBase stA).2 :=
  ⟨Or.inl rfl,
    claim_c7_empty_note_no_write envBase stA (Or.inl rfl) "doc.gpspec.md" "x"⟩

/-- C8: with an absent identifier and no prior AiRequest, resolution
yields NotFound, and `fragmentPrompt` reports the error message and
terminates with the AiRequest record still absent — no request event is
ever emitted. -/
theorem claim_c8_absent_no_request (env : Env) (st : ExtensionState)
    (template : Option PromptTemplate) (hreq : st.aiRequest = none)
    (hclean : env.textDocuments.any (fun d => d.isDirty) = false) :
    (resolveSpec env
        { project := env.workspaceProject, aiRequest := none, running := false }
        none).1 = none ∧
    fragmentPrompt env st none template =
      ({ project := env.workspaceProject, aiRequest := none, running := false },
        [Event.parseWorkspace, Event.cancelAiRequest, Event.showError notFoundMsg]) := by
  constructor
  · simp [resolveSpec, substPrevious, uriToPath, Project.resolveFragment, rootFragmentOpt]
  · simp [fragmentPrompt, checkSaved, hclean, cancelAiRequest, hreq,
      resolveSpec, substPrevious, uriToPath, Project.resolveFragment, rootFragmentOpt]

theorem claim_c8_absent_no_request_witness :
    stNone.aiRequest = none ∧
    envBase.textDocuments.any (fun d => d.isDirty) = false ∧
    ((resolveSpec envBase
        { project := envBase.workspaceProject, aiRequest := none, running := false }
        none).1 = none ∧
      fragmentPrompt envBase stNone none none =
        ({ project := envBase.workspaceProject, aiRequest := none, running := false },
          [Event.parseWorkspace, Event.cancelAiRequest, Event.showError notFoundMsg])) :=
  ⟨rfl, rfl, claim_c8_absent_no_request envBase stNone none rfl rfl⟩

/-- C9: every fragment successfully returned by `resolveSpec` is a root
fragment (its `parent` is `none`): the `rootFragment` ancestor walk is
applied on every successful path. -/
theorem claim_c9_root (env : Env) (st : ExtensionState) (frag0 : Option FragIdent)
    (f : Fragment) (h : (resolveSpec env st frag0).1 = some f) :
    f.parent = none := by
  unfold resolveSpec at h
  split at h
  · split at h
    · exact rootFragmentOpt_parent (by simpa using h)
    · exact resolveSpecPath_root _ _ _ _ h
  · exact rootFragmentOpt_parent (by simpa using h)

theorem claim_c9_root_witness :
    (resolveSpec envBase stA (some (.frag fragA))).1 = some fragA ∧
    fragA.parent = none :=
  ⟨by decide, claim_c9_root envBase stA (some (.frag fragA)) fragA (by decide)⟩

/-- C10: navigating by an identifier that resolves to no fragment is a
clean no-op — the state is returned unchanged and no editor, selection or
reveal effect is emitted. -/
theorem claim_c10_navigate_noop (st : ExtensionState) (ident : FragIdent)
    (h : st.project.resolveFragment (some ident) = none) :
    fragmentNavigate st ident = (st, []) := by
  unfold fragmentNavigate
  rw [h]

theorem claim_c10_navigate_noop_witness :
    stA.project.resolveFragment (some (.str "nope")) = none ∧
    fragmentNavigate stA (.str "nope") = (stA, []) :=
  ⟨by decide, claim_c10_navigate_noop stA (.str "nope") (by decide)⟩

end FragmentCommands
